import Mathlib

/-!
Shallow embedding of the pagesync relay server (multi-tenant variant,
`src/unnamed/part_000`).  JavaScript `Map`s are modelled as association
lists in insertion order (`mapGet` / `mapSet` / filtering), timestamps as
natural numbers of milliseconds (`new Date(ms).toISOString()` is injective
and strictly monotone in `ms`, so `updatedAt` is carried as the millisecond
value), and JSON values as the inductive `JsValue`.  `JSON.parse` and
`Date.parse` are platform library functions, so they enter as explicit
function parameters (`jsonParse`, `dateOk`); theorems quantify over them.
-/

namespace PageSync

def MAX_BODY_BYTES : Nat := 1000000

def MAX_ID_LENGTH : Nat := 128

/-- `ws.OPEN` readyState constant. -/
def wsOPEN : Nat := 1

/-- Association-list lookup, modelling `Map.get`. -/
def mapGet {α : Type} : List (String × α) → String → Option α
  | [], _ => none
  | (k, v) :: rest, key => if k = key then some v else mapGet rest key

/-- Association-list insert-or-overwrite, modelling `Map.set`
(existing keys keep their position, new keys are appended). -/
def mapSet {α : Type} : List (String × α) → String → α → List (String × α)
  | [], key, v => [(key, v)]
  | (k, w) :: rest, key, v =>
      if k = key then (k, v) :: rest else (k, w) :: mapSet rest key v

/-- A map whose keys appear at most once, as a JavaScript `Map` guarantees. -/
def keysNodup {α : Type} (m : List (String × α)) : Prop :=
  (m.map Prod.fst).Nodup

/-- `TenantState`: the per-tenant latest navigation state (`makeEmptyState`
fields, lines 37-44 of the source). -/
structure TenantState where
  remId : Option String
  strength : Option String
  updatedAt : Option Nat
  sourceClientId : Option String
deriving DecidableEq, Repr

/-- `makeEmptyState()`. -/
def makeEmptyState : TenantState :=
  { remId := none, strength := none, updatedAt := none, sourceClientId := none }

/-- The record stored in `activeClients` on an accepted update. -/
structure ClientActivity where
  userId : String
  lastSeenAt : Nat
  lastRemId : String
  lastStrength : String
deriving DecidableEq, Repr

/-- The server's mutable maps and the update counter. -/
structure ServerState where
  latestStateByUserId : List (String × TenantState)
  latestStateLastTouchedAtByUserId : List (String × Nat)
  activeClients : List (String × ClientActivity)
  updateCounter : Nat
deriving DecidableEq, Repr

def emptyServer : ServerState :=
  { latestStateByUserId := []
    latestStateLastTouchedAtByUserId := []
    activeClients := []
    updateCounter := 0 }

/-- JSON values as produced by `JSON.parse` (no `undefined`: `JSON.parse`
never yields it; a missing object field is `Option.none` on lookup). -/
inductive JsValue where
  | nullV : JsValue
  | boolV : Bool → JsValue
  | numV : Int → JsValue
  | strV : String → JsValue
  | arrV : List JsValue → JsValue
  | objV : List (String × JsValue) → JsValue

/-- `isPlainObject`: an object literal (arrays, primitives and `null` fail). -/
def isPlainObject : JsValue → Bool
  | .objV _ => true
  | _ => false

/-- A character allowed by `SAFE_ID_REGEX = /^[A-Za-z0-9_-]+$/`. -/
def isSafeChar (c : Char) : Bool :=
  (('A' ≤ c && c ≤ 'Z') || ('a' ≤ c && c ≤ 'z') || ('0' ≤ c && c ≤ '9')
    || c == '_' || c == '-')

/-- `isSafeId` on an actual string: nonempty, at most 128 chars, all safe. -/
def isSafeString (s : String) : Bool :=
  decide (0 < s.length) && decide (s.length ≤ MAX_ID_LENGTH) && s.toList.all isSafeChar

/-- `isSafeId(value)` on a JS value that may be absent (`undefined`) —
`typeof value === 'string'` fails for anything but a string. -/
def isSafeIdField : Option JsValue → Bool
  | some (.strV s) => isSafeString s
  | _ => false

/-- The `strength` check: `payload.strength` must be exactly the string
`'strong'` or `'weak'`. -/
def isStrengthField : Option JsValue → Bool
  | some (.strV s) => s == "strong" || s == "weak"
  | _ => false

def ALLOWED_UPDATE_KEYS : List String :=
  ["remId", "strength", "userId", "sourceClientId", "sentAt"]

/-- First key of the payload outside `ALLOWED_UPDATE_KEYS` (the validator's
`for (const key of keys)` loop returns on the first unknown key). -/
def firstUnknownKey (keys : List String) : Option String :=
  keys.find? (fun k => !(ALLOWED_UPDATE_KEYS.contains k))

/-- Error codes of the error taxonomy. -/
inductive ErrCode where
  | E_INVALID_PAYLOAD
  | E_INVALID_FIELD
  | E_INVALID_JSON
  | E_BODY_TOO_LARGE
  | E_INTERNAL
  | E_INVALID_QUERY
  | E_NOT_FOUND
deriving DecidableEq, Repr

/-- The normalized value returned by a successful validation: exactly the
recognized fields. -/
structure UpdateValue where
  remId : String
  strength : String
  userId : String
  sourceClientId : String
  sentAt : Option String
deriving DecidableEq, Repr

inductive ValidationResult where
  | invalid : ErrCode → String → ValidationResult
  | valid : UpdateValue → ValidationResult
deriving DecidableEq, Repr

/-- Extract the string payload of a field known to be a JS string. -/
def strOfField : Option JsValue → String
  | some (.strV s) => s
  | _ => ""

/-- `validateUpdatePayload` (source lines 173-217).  `dateOk` models
`!Number.isNaN(Date.parse s)`. -/
def validateUpdatePayload (dateOk : String → Bool) (payload : JsValue) :
    ValidationResult :=
  match payload with
  | .objV fields =>
    match firstUnknownKey (fields.map Prod.fst) with
    | some k => .invalid .E_INVALID_PAYLOAD ("Unknown payload field: " ++ k)
    | none =>
      if !isSafeIdField (mapGet fields "remId") then
        .invalid .E_INVALID_FIELD "Invalid remId"
      else if !isStrengthField (mapGet fields "strength") then
        .invalid .E_INVALID_FIELD "Invalid strength"
      else if !isSafeIdField (mapGet fields "userId") then
        .invalid .E_INVALID_FIELD "Invalid userId"
      else if !isSafeIdField (mapGet fields "sourceClientId") then
        .invalid .E_INVALID_FIELD "Invalid sourceClientId"
      else
        match mapGet fields "sentAt" with
        | none =>
            .valid
              { remId := strOfField (mapGet fields "remId")
                strength := strOfField (mapGet fields "strength")
                userId := strOfField (mapGet fields "userId")
                sourceClientId := strOfField (mapGet fields "sourceClientId")
                sentAt := none }
        | some (.strV s) =>
            if dateOk s then
              .valid
                { remId := strOfField (mapGet fields "remId")
                  strength := strOfField (mapGet fields "strength")
                  userId := strOfField (mapGet fields "userId")
                  sourceClientId := strOfField (mapGet fields "sourceClientId")
                  sentAt := some s }
            else .invalid .E_INVALID_FIELD "Invalid sentAt"
        | some _ => .invalid .E_INVALID_FIELD "Invalid sentAt"
  | _ => .invalid .E_INVALID_PAYLOAD "Payload must be a plain object"

/-- A request body as seen by `parseRequestBody`: either the concatenated
chunks, or a stream `error` event. -/
inductive RawBody where
  | content : String → RawBody
  | streamError : RawBody

/-- `parseRequestBody` (source lines 124-145; identical in
`src/server/index.js` lines 73-94): the running length check rejects with
`E_BODY_TOO_LARGE` as soon as the accumulated body exceeds
`MAX_BODY_BYTES` — before the `end` handler ever runs `JSON.parse`; an
empty body is replaced by `{}` (`body ? JSON.parse(body) : {}`); a parse
failure is `E_INVALID_JSON`; a stream error is `E_INTERNAL`. -/
def parseRequestBody (jsonParse : String → Option JsValue) :
    RawBody → Except (ErrCode × String) JsValue
  | .streamError => .error (.E_INTERNAL, "Request stream error")
  | .content body =>
    if body.length > MAX_BODY_BYTES then .error (.E_BODY_TOO_LARGE, "Body too large")
    else if body == "" then .ok (.objV [])
    else
      match jsonParse body with
      | some v => .ok v
      | none => .error (.E_INVALID_JSON, "Invalid JSON body")

/-- Status mapping of the `/update` catch block (source lines 392-402). -/
def errStatus : ErrCode → Nat
  | .E_INVALID_JSON => 400
  | .E_INVALID_PAYLOAD => 400
  | .E_INVALID_FIELD => 400
  | .E_BODY_TOO_LARGE => 413
  | _ => 500

/-- One live WebSocket connection: identity, bound tenant, readyState,
heartbeat flag. -/
structure Conn where
  connId : Nat
  userId : String
  readyState : Nat
  isAlive : Bool
deriving DecidableEq, Repr

/-- The `page_update` message built by `broadcastPageUpdate`. -/
structure PageUpdateMsg where
  remId : String
  strength : String
  updatedAt : Nat
  userId : String
  sourceClientId : String
deriving DecidableEq, Repr

/-- JS truthiness of a nullable string (`!x` is true for `null` and `""`). -/
def optStrTruthy : Option String → Bool
  | some s => !(s == "")
  | none => false

/-- `broadcastPageUpdate(userId, state)` (source lines 250-282): skipped
unless every field is truthy (`updatedAt` is a nonempty ISO string whenever
non-null, so its truthiness is `isSome`); otherwise one message is sent to
every client whose socket is OPEN and whose `userId` equals the tenant.
The result lists the `(connId, message)` deliveries in registry order. -/
def broadcastPageUpdate (clients : List Conn) (userId : String)
    (st : TenantState) : List (Nat × PageUpdateMsg) :=
  if optStrTruthy st.remId && optStrTruthy st.strength && st.updatedAt.isSome
      && optStrTruthy st.sourceClientId then
    (clients.filter (fun ws => ws.readyState == wsOPEN && ws.userId == userId)).map
      (fun ws =>
        (ws.connId,
          { remId := st.remId.getD ""
            strength := st.strength.getD ""
            updatedAt := st.updatedAt.getD 0
            userId := userId
            sourceClientId := st.sourceClientId.getD "" }))
  else []

/-- The accepted branch of the `/update` handler (source lines 357-378):
build `nextState` stamped with the server clock, overwrite the tenant's
state and last-touched record, overwrite the device's activity record,
bump the counter.  Returns the new server state and `nextState`. -/
def applyAcceptedUpdate (s : ServerState) (u : UpdateValue) (nowMs : Nat) :
    ServerState × TenantState :=
  let nextState : TenantState :=
    { remId := some u.remId
      strength := some u.strength
      updatedAt := some nowMs
      sourceClientId := some u.sourceClientId }
  ({ latestStateByUserId := mapSet s.latestStateByUserId u.userId nextState
     latestStateLastTouchedAtByUserId :=
       mapSet s.latestStateLastTouchedAtByUserId u.userId nowMs
     activeClients :=
       mapSet s.activeClients u.sourceClientId
         { userId := u.userId
           lastSeenAt := nowMs
           lastRemId := u.remId
           lastStrength := u.strength }
     updateCounter := s.updateCounter + 1 }, nextState)

/-- Observable outcome of one `POST /update` request: resulting server
state, HTTP status, error code/message, the tenant broadcast to
(`update.userId`, present exactly on acceptance), the state echoed in the
200 response, and the WebSocket deliveries performed. -/
structure UpdateOutcome where
  state : ServerState
  status : Nat
  errCode : Option ErrCode
  errMessage : Option String
  acceptedUser : Option String
  respState : Option TenantState
  emitted : List (Nat × PageUpdateMsg)
deriving DecidableEq, Repr

/-- The `POST /update` route (source lines 342-409). -/
def handleUpdate (dateOk : String → Bool) (jsonParse : String → Option JsValue)
    (clients : List Conn) (s : ServerState) (raw : RawBody) (nowMs : Nat) :
    UpdateOutcome :=
  match parseRequestBody jsonParse raw with
  | .error (code, msg) =>
      { state := s, status := errStatus code, errCode := some code
        errMessage := some msg, acceptedUser := none, respState := none
        emitted := [] }
  | .ok payload =>
    match validateUpdatePayload dateOk payload with
    | .invalid code msg =>
        { state := s, status := 400, errCode := some code
          errMessage := some msg, acceptedUser := none, respState := none
          emitted := [] }
    | .valid u =>
        let p := applyAcceptedUpdate s u nowMs
        { state := p.1, status := 200, errCode := none, errMessage := none
          acceptedUser := some u.userId, respState := some p.2
          emitted := broadcastPageUpdate clients u.userId p.2 }

/-- Whether the touched-map marks `u` as expired at `now`
(`now - lastTouchedAt > INACTIVITY_TTL_MS`; timestamps never run backwards
under a non-decreasing clock, so truncated subtraction agrees with JS). -/
def expiredUser (ttl now : Nat) (touched : List (String × Nat)) (u : String) :
    Bool :=
  match mapGet touched u with
  | some t => now - t > ttl
  | none => false

/-- `cleanupInactiveMemory(now)` (source lines 226-248): prune activity
records older than the TTL, and for every tenant whose last-touched stamp
is older than the TTL, delete both its state and its stamp
(`clearLatestStateForUser`). -/
def cleanupInactiveMemory (ttl : Nat) (s : ServerState) (now : Nat) :
    ServerState :=
  { latestStateByUserId :=
      s.latestStateByUserId.filter
        (fun p => !(expiredUser ttl now s.latestStateLastTouchedAtByUserId p.1))
    latestStateLastTouchedAtByUserId :=
      s.latestStateLastTouchedAtByUserId.filter (fun p => !(now - p.2 > ttl))
    activeClients :=
      s.activeClients.filter (fun p => !(now - p.2.lastSeenAt > ttl))
    updateCounter := s.updateCounter }

/-- `getStateForUser` (source lines 169-171). -/
def getStateForUser (s : ServerState) (userId : String) : TenantState :=
  (mapGet s.latestStateByUserId userId).getD makeEmptyState

/-- Observable outcome of one `GET /state` request. -/
structure StateReadOutcome where
  state : ServerState
  status : Nat
  body : Option TenantState
  errCode : Option ErrCode
deriving DecidableEq, Repr

/-- The `GET /state` route (source lines 326-340): validate the `userId`
query parameter (`searchParams.get` yields `null` when absent, which fails
`isSafeId`), run the on-demand cleanup, read the state. -/
def handleGetState (ttl : Nat) (s : ServerState) (userIdParam : Option String)
    (now : Nat) : StateReadOutcome :=
  match userIdParam with
  | none =>
      { state := s, status := 400, body := none, errCode := some .E_INVALID_QUERY }
  | some uid =>
      if !isSafeString uid then
        { state := s, status := 400, body := none, errCode := some .E_INVALID_QUERY }
      else
        let s' := cleanupInactiveMemory ttl s now
        { state := s', status := 200, body := some (getStateForUser s' uid)
          errCode := none }

/-- The GC sweep as an event: it runs `cleanupInactiveMemory` and sends no
WebSocket message (the source's sweep performs no `ws.send`). -/
def gcSweepStep (ttl : Nat) (s : ServerState) (now : Nat) :
    ServerState × List (Nat × PageUpdateMsg) :=
  (cleanupInactiveMemory ttl s now, [])

/-- Outcome of a WebSocket upgrade (source lines 419-439): either closed
with a code before registration, or registered (and sent the welcome). -/
inductive WsConnectResult where
  | rejected : Nat → WsConnectResult
  | accepted : WsConnectResult
deriving DecidableEq, Repr

/-- The `wss.on('connection')` handler with `userIdParam` the result of
`getUserIdFromUrl`: an unsafe or missing id is closed with 1008 and never
added to `clients`; otherwise the socket is registered with
`isAlive = true` and its tenant bound, and the welcome is sent. -/
def handleWsConnection (clients : List Conn) (connId : Nat)
    (userIdParam : Option String) : List Conn × WsConnectResult :=
  match userIdParam with
  | none => (clients, .rejected 1008)
  | some uid =>
      if isSafeString uid then
        (clients ++ [{ connId := connId, userId := uid, readyState := wsOPEN
                       isAlive := true }], .accepted)
      else (clients, .rejected 1008)

/-- The `pong` listener: set `isAlive = true` on the socket that ponged. -/
def handlePong (clients : List Conn) (cid : Nat) : List Conn :=
  clients.map (fun ws => if ws.connId = cid then { ws with isAlive := true } else ws)

/-- A batch of pong events between sweeps. -/
def applyPongs (clients : List Conn) (pongs : List Nat) : List Conn :=
  pongs.foldl handlePong clients

/-- One tick of `wsHealthInterval` (source lines 460-472): a socket whose
`isAlive` is false is terminated and removed (second component collects the
terminated ids); a live one is marked `isAlive = false` and pinged. -/
def heartbeatSweep : List Conn → List Conn × List Nat
  | [] => ([], [])
  | ws :: rest =>
      if ws.isAlive = false then
        ((heartbeatSweep rest).1, ws.connId :: (heartbeatSweep rest).2)
      else
        ({ ws with isAlive := false } :: (heartbeatSweep rest).1,
          (heartbeatSweep rest).2)

/-- All four `TenantState` fields populated. -/
def fullyPopulated (st : TenantState) : Bool :=
  st.remId.isSome && st.strength.isSome && st.updatedAt.isSome
    && st.sourceClientId.isSome

/-- All four `TenantState` fields null. -/
def allNull (st : TenantState) : Bool :=
  st.remId.isNone && st.strength.isNone && st.updatedAt.isNone
    && st.sourceClientId.isNone

/-- The §3 invariant: all four fields null together or all non-null together. -/
def wellFormedState (st : TenantState) : Bool :=
  allNull st || fullyPopulated st

/-- A sequence of accepted updates applied in processing order. -/
def applySeq (s : ServerState) (us : List (UpdateValue × Nat)) : ServerState :=
  us.foldl (fun st p => (applyAcceptedUpdate st p.1 p.2).1) s

/-- Forget the (unused) `sentAt` component of a successful validation. -/
def forgetSentAt : ValidationResult → ValidationResult
  | .valid u => .valid { u with sentAt := none }
  | r => r

/-! ### Association-list lemmas -/

theorem mapGet_mapSet_self {α : Type} (m : List (String × α)) (k : String) (v : α) :
    mapGet (mapSet m k v) k = some v := by
  induction m with
  | nil => simp [mapSet, mapGet]
  | cons hd tl ih =>
    obtain ⟨k', w⟩ := hd
    by_cases h : k' = k
    · simp [mapSet, mapGet, h]
    · simp [mapSet, mapGet, h, ih]

theorem mapGet_mapSet_ne {α : Type} (m : List (String × α)) (k k' : String) (v : α)
    (h : k' ≠ k) : mapGet (mapSet m k v) k' = mapGet m k' := by
  have hne : ¬k = k' := fun hh => h hh.symm
  induction m with
  | nil => simp [mapSet, mapGet, hne]
  | cons hd tl ih =>
    obtain ⟨ka, w⟩ := hd
    by_cases hk : ka = k
    · subst hk
      simp [mapSet, mapGet, hne]
    · simp only [mapSet, if_neg hk, mapGet]
      by_cases hk' : ka = k'
      · simp [hk']
      · simp [hk', ih]

theorem mapGet_eq_none_of_not_mem_keys {α : Type} {m : List (String × α)}
    {k : String} (h : k ∉ m.map Prod.fst) : mapGet m k = none := by
  induction m with
  | nil => rfl
  | cons hd tl ih =>
    obtain ⟨k', v⟩ := hd
    simp only [List.map_cons, List.mem_cons, not_or] at h
    have hne : ¬k' = k := fun hh => h.1 hh.symm
    simp [mapGet, hne, ih h.2]

theorem mem_keys_of_mapGet_eq_some {α : Type} {m : List (String × α)}
    {k : String} {v : α} (h : mapGet m k = some v) : k ∈ m.map Prod.fst := by
  by_contra hmem
  rw [mapGet_eq_none_of_not_mem_keys hmem] at h
  exact Option.noConfusion h

theorem keys_mapSet {α : Type} (m : List (String × α)) (k : String) (v : α) :
    (mapSet m k v).map Prod.fst =
      if k ∈ m.map Prod.fst then m.map Prod.fst else m.map Prod.fst ++ [k] := by
  induction m with
  | nil => simp [mapSet]
  | cons hd tl ih =>
    obtain ⟨k', w⟩ := hd
    by_cases h : k' = k
    · subst h; simp [mapSet]
    · simp only [mapSet, if_neg h, List.map_cons, List.mem_cons]
      rw [ih]
      have hne : ¬k = k' := fun hh => h hh.symm
      by_cases hmem : k ∈ tl.map Prod.fst
      · simp [hmem, hne]
      · simp [hmem, hne]

theorem keysNodup_mapSet {α : Type} {m : List (String × α)} (k : String) (v : α)
    (h : keysNodup m) : keysNodup (mapSet m k v) := by
  unfold keysNodup at h ⊢
  rw [keys_mapSet]
  by_cases hmem : k ∈ m.map Prod.fst
  · simpa [hmem] using h
  · simp only [hmem, if_false]
    rw [← List.concat_eq_append]
    exact List.Nodup.concat hmem h

theorem mem_mapSet {α : Type} {m : List (String × α)} {k : String} {v : α}
    {kv : String × α} (h : kv ∈ mapSet m k v) : kv ∈ m ∨ kv.2 = v := by
  induction m with
  | nil =>
    simp only [mapSet, List.mem_singleton] at h
    subst h
    exact Or.inr rfl
  | cons hd tl ih =>
    obtain ⟨k', w⟩ := hd
    by_cases hk : k' = k
    · subst hk
      simp only [mapSet, if_pos rfl] at h
      cases h with
      | head => exact Or.inr rfl
      | tail _ hmem => exact Or.inl (List.mem_cons_of_mem _ hmem)
    · simp only [mapSet, if_neg hk] at h
      cases h with
      | head => exact Or.inl (List.mem_cons_self _ _)
      | tail _ hmem =>
        rcases ih hmem with h' | h'
        · exact Or.inl (List.mem_cons_of_mem _ h')
        · exact Or.inr h'

theorem mapGet_filter {α : Type} (p : String × α → Bool) (m : List (String × α))
    (k : String) (h : keysNodup m) :
    mapGet (m.filter p) k =
      (mapGet m k).bind (fun v => if p (k, v) then some v else none) := by
  induction m with
  | nil => simp [mapGet]
  | cons hd tl ih =>
    obtain ⟨k', v⟩ := hd
    have hnd : keysNodup tl := by
      unfold keysNodup at h ⊢
      exact (List.nodup_cons.mp h).2
    have hout : k' ∉ tl.map Prod.fst := by
      unfold keysNodup at h
      exact (List.nodup_cons.mp h).1
    by_cases hk : k' = k
    · subst hk
      by_cases hp : p (k', v)
      · simp [List.filter, hp, mapGet]
      · have : mapGet (tl.filter p) k' = none := by
          apply mapGet_eq_none_of_not_mem_keys
          intro hc
          exact hout (by
            rcases List.mem_map.mp hc with ⟨q, hq, hq'⟩
            exact List.mem_map.mpr ⟨q, (List.mem_filter.mp hq).1, hq'⟩)
        simp [List.filter, hp, mapGet, this]
    · by_cases hp : p (k', v)
      · simp [List.filter, hp, mapGet, hk, ih hnd]
      · simp [List.filter, hp, mapGet, hk, ih hnd]

/-! ### Claim theorems -/

/-- C3: every rejected `POST /update` (non-object payload, unknown field,
invalid field, invalid JSON, oversized or erroring body) answers with
status 400, 413 or 500, and leaves the whole server state — the tenant
state map, the last-touched map, the client activity map and the counter —
unchanged, broadcasting nothing; only an accepted request (status 200)
can change anything. -/
theorem claim_C3_reject_leaves_state_unchanged (dateOk : String → Bool)
    (jsonParse : String → Option JsValue) (clients : List Conn) (s : ServerState)
    (raw : RawBody) (nowMs : Nat) :
    (handleUpdate dateOk jsonParse clients s raw nowMs).status = 200 ∨
    ((handleUpdate dateOk jsonParse clients s raw nowMs).state = s ∧
     (handleUpdate dateOk jsonParse clients s raw nowMs).emitted = [] ∧
     (handleUpdate dateOk jsonParse clients s raw nowMs).respState = none ∧
     ((handleUpdate dateOk jsonParse clients s raw nowMs).status = 400 ∨
      (handleUpdate dateOk jsonParse clients s raw nowMs).status = 413 ∨
      (handleUpdate dateOk jsonParse clients s raw nowMs).status = 500)) := by
  unfold handleUpdate
  cases hp : parseRequestBody jsonParse raw with
  | error e =>
    obtain ⟨code, msg⟩ := e
    right
    refine ⟨rfl, rfl, rfl, ?_⟩
    cases code <;> simp [errStatus]
  | ok payload =>
    dsimp only
    cases hv : validateUpdatePayload dateOk payload with
    | invalid code msg => exact Or.inr ⟨rfl, rfl, rfl, Or.inl rfl⟩
    | valid u => exact Or.inl rfl

/-- C4: a `POST /update` whose body exceeds `MAX_BODY_BYTES = 1000000`
bytes is rejected with 413 / `E_BODY_TOO_LARGE`, changes nothing and sends
nothing; the whole outcome is independent of the JSON parse function, i.e.
the rejection happens before JSON parsing is attempted. -/
theorem claim_C4_body_too_large (dateOk : String → Bool)
    (jsonParse jsonParse2 : String → Option JsValue) (clients : List Conn)
    (s : ServerState) (body : String) (nowMs : Nat)
    (h : body.length > MAX_BODY_BYTES) :
    (handleUpdate dateOk jsonParse clients s (.content body) nowMs).status = 413 ∧
    (handleUpdate dateOk jsonParse clients s (.content body) nowMs).errCode
      = some .E_BODY_TOO_LARGE ∧
    (handleUpdate dateOk jsonParse clients s (.content body) nowMs).state = s ∧
    (handleUpdate dateOk jsonParse clients s (.content body) nowMs).emitted = [] ∧
    handleUpdate dateOk jsonParse clients s (.content body) nowMs
      = handleUpdate dateOk jsonParse2 clients s (.content body) nowMs := by
  simp [handleUpdate, parseRequestBody, h, errStatus]

/-- A concrete body of 1,000,001 characters. -/
def bigBody : String := String.mk (List.replicate (MAX_BODY_BYTES + 1) 'a')

/-- Witness for C4 at the concrete oversized body. -/
theorem claim_C4_witness :
    bigBody.length > MAX_BODY_BYTES ∧
    (handleUpdate (fun _ => true) (fun _ => none) [] emptyServer
      (.content bigBody) 0).status = 413 := by
  have h : bigBody.length > MAX_BODY_BYTES := by
    simp [bigBody]
  exact ⟨h, (claim_C4_body_too_large (fun _ => true) (fun _ => none)
    (fun _ => some (.objV [])) [] emptyServer bigBody 0 h).1⟩

/-- C10: a zero-byte body is replaced by the empty object before parsing
(`body ? JSON.parse(body) : {}`), so for every JSON parse function the
request fails with 400 `E_INVALID_FIELD` for the missing `remId` — not
with `E_INVALID_JSON` — and the state is untouched. -/
theorem claim_C10_empty_body (dateOk : String → Bool)
    (jsonParse : String → Option JsValue) (clients : List Conn) (s : ServerState)
    (nowMs : Nat) :
    (handleUpdate dateOk jsonParse clients s (.content "") nowMs).status = 400 ∧
    (handleUpdate dateOk jsonParse clients s (.content "") nowMs).errCode
      = some .E_INVALID_FIELD ∧
    (handleUpdate dateOk jsonParse clients s (.content "") nowMs).errMessage
      = some "Invalid remId" ∧
    (handleUpdate dateOk jsonParse clients s (.content "") nowMs).errCode
      ≠ some .E_INVALID_JSON ∧
    (handleUpdate dateOk jsonParse clients s (.content "") nowMs).state = s := by
  refine ⟨rfl, rfl, rfl, ?_, rfl⟩
  intro hc
  exact ErrCode.noConfusion (Option.some.inj hc)

/-- Witness for C3: a concrete rejected request (strength `"maybe"`)
leaves the server state unchanged and answers 400. -/
theorem claim_C3_witness :
    (handleUpdate (fun _ => true)
      (fun _ => some (.objV [("remId", .strV "abc123"),
        ("strength", .strV "maybe"), ("userId", .strV "u1"),
        ("sourceClientId", .strV "dev1")]))
      [] emptyServer (.content "x") 0).state = emptyServer := by
  rcases claim_C3_reject_leaves_state_unchanged (fun _ => true)
    (fun _ => some (.objV [("remId", .strV "abc123"),
      ("strength", .strV "maybe"), ("userId", .strV "u1"),
      ("sourceClientId", .strV "dev1")]))
    [] emptyServer (.content "x") 0 with h | h
  · exact absurd h (by decide)
  · exact h.1

/-- Witness for C10 at concrete inputs, with a JSON parse function that
fails on every string: the empty body is still an `E_INVALID_FIELD`
rejection, not `E_INVALID_JSON`. -/
theorem claim_C10_witness :
    (handleUpdate (fun _ => true) (fun _ => none) [] emptyServer
      (.content "") 0).status = 400 ∧
    (handleUpdate (fun _ => true) (fun _ => none) [] emptyServer
      (.content "") 0).errCode ≠ some .E_INVALID_JSON :=
  ⟨(claim_C10_empty_body (fun _ => true) (fun _ => none) [] emptyServer 0).1,
    (claim_C10_empty_body (fun _ => true) (fun _ => none) [] emptyServer
      0).2.2.2.1⟩

theorem isSafeIdField_elim {v : Option JsValue} (h : isSafeIdField v = true) :
    ∃ s, v = some (.strV s) ∧ isSafeString s = true := by
  match v with
  | none => exact absurd h (by simp [isSafeIdField])
  | some (.nullV) => exact absurd h (by simp [isSafeIdField])
  | some (.boolV b) => exact absurd h (by simp [isSafeIdField])
  | some (.numV n) => exact absurd h (by simp [isSafeIdField])
  | some (.strV s) => exact ⟨s, rfl, h⟩
  | some (.arrV xs) => exact absurd h (by simp [isSafeIdField])
  | some (.objV fs) => exact absurd h (by simp [isSafeIdField])

theorem isStrengthField_elim {v : Option JsValue} (h : isStrengthField v = true) :
    ∃ s, v = some (.strV s) ∧ (s = "strong" ∨ s = "weak") := by
  match v with
  | none => exact absurd h (by simp [isStrengthField])
  | some (.nullV) => exact absurd h (by simp [isStrengthField])
  | some (.boolV b) => exact absurd h (by simp [isStrengthField])
  | some (.numV n) => exact absurd h (by simp [isStrengthField])
  | some (.strV s) =>
    refine ⟨s, rfl, ?_⟩
    have := h
    simp only [isStrengthField, Bool.or_eq_true, beq_iff_eq] at this
    exact this
  | some (.arrV xs) => exact absurd h (by simp [isStrengthField])
  | some (.objV fs) => exact absurd h (by simp [isStrengthField])

/-- C5: the validator checks its rules in a fixed order with the first
failure winning — non-object payloads and unknown keys give
`E_INVALID_PAYLOAD`; then `remId`, `strength`, `userId`, `sourceClientId`
and, when present, `sentAt` are checked in that order, each failure giving
`E_INVALID_FIELD` with its own message; the empty object fails with
`Invalid remId`; a success is the normalized copy of exactly the
recognized fields. -/
theorem claim_C5_validator_order :
    (∀ (dateOk : String → Bool) (v : JsValue), isPlainObject v = false →
      validateUpdatePayload dateOk v
        = .invalid .E_INVALID_PAYLOAD "Payload must be a plain object") ∧
    (∀ (dateOk : String → Bool) (fields : List (String × JsValue)) (k : String),
      firstUnknownKey (fields.map Prod.fst) = some k →
      validateUpdatePayload dateOk (.objV fields)
        = .invalid .E_INVALID_PAYLOAD ("Unknown payload field: " ++ k)) ∧
    (∀ (dateOk : String → Bool) (fields : List (String × JsValue)),
      firstUnknownKey (fields.map Prod.fst) = none →
      isSafeIdField (mapGet fields "remId") = false →
      validateUpdatePayload dateOk (.objV fields)
        = .invalid .E_INVALID_FIELD "Invalid remId") ∧
    (∀ (dateOk : String → Bool) (fields : List (String × JsValue)),
      firstUnknownKey (fields.map Prod.fst) = none →
      isSafeIdField (mapGet fields "remId") = true →
      isStrengthField (mapGet fields "strength") = false →
      validateUpdatePayload dateOk (.objV fields)
        = .invalid .E_INVALID_FIELD "Invalid strength") ∧
    (∀ (dateOk : String → Bool) (fields : List (String × JsValue)),
      firstUnknownKey (fields.map Prod.fst) = none →
      isSafeIdField (mapGet fields "remId") = true →
      isStrengthField (mapGet fields "strength") = true →
      isSafeIdField (mapGet fields "userId") = false →
      validateUpdatePayload dateOk (.objV fields)
        = .invalid .E_INVALID_FIELD "Invalid userId") ∧
    (∀ (dateOk : String → Bool) (fields : List (String × JsValue)),
      firstUnknownKey (fields.map Prod.fst) = none →
      isSafeIdField (mapGet fields "remId") = true →
      isStrengthField (mapGet fields "strength") = true →
      isSafeIdField (mapGet fields "userId") = true →
      isSafeIdField (mapGet fields "sourceClientId") = false →
      validateUpdatePayload dateOk (.objV fields)
        = .invalid .E_INVALID_FIELD "Invalid sourceClientId") ∧
    (∀ (dateOk : String → Bool) (fields : List (String × JsValue)) (sa : String),
      firstUnknownKey (fields.map Prod.fst) = none →
      isSafeIdField (mapGet fields "remId") = true →
      isStrengthField (mapGet fields "strength") = true →
      isSafeIdField (mapGet fields "userId") = true →
      isSafeIdField (mapGet fields "sourceClientId") = true →
      mapGet fields "sentAt" = some (.strV sa) →
      dateOk sa = false →
      validateUpdatePayload dateOk (.objV fields)
        = .invalid .E_INVALID_FIELD "Invalid sentAt") ∧
    (∀ (dateOk : String → Bool),
      validateUpdatePayload dateOk (.objV [])
        = .invalid .E_INVALID_FIELD "Invalid remId") ∧
    (∀ (dateOk : String → Bool) (fields : List (String × JsValue)) (u : UpdateValue),
      validateUpdatePayload dateOk (.objV fields) = .valid u →
      mapGet fields "remId" = some (.strV u.remId) ∧
      mapGet fields "strength" = some (.strV u.strength) ∧
      mapGet fields "userId" = some (.strV u.userId) ∧
      mapGet fields "sourceClientId" = some (.strV u.sourceClientId) ∧
      ((u.sentAt = none ∧ mapGet fields "sentAt" = none) ∨
        (∃ ss, u.sentAt = some ss ∧ mapGet fields "sentAt" = some (.strV ss)
          ∧ dateOk ss = true))) := by
  refine ⟨?_, ?_, ?_, ?_, ?_, ?_, ?_, ?_, ?_⟩
  · intro dateOk v hv
    match v with
    | .nullV => rfl
    | .boolV b => rfl
    | .numV n => rfl
    | .strV s => rfl
    | .arrV xs => rfl
    | .objV fs => exact absurd hv (by simp [isPlainObject])
  · intro dateOk fields k hk
    simp [validateUpdatePayload, hk]
  · intro dateOk fields h1 h2
    simp [validateUpdatePayload, h1, h2]
  · intro dateOk fields h1 h2 h3
    simp [validateUpdatePayload, h1, h2, h3]
  · intro dateOk fields h1 h2 h3 h4
    simp [validateUpdatePayload, h1, h2, h3, h4]
  · intro dateOk fields h1 h2 h3 h4 h5
    simp [validateUpdatePayload, h1, h2, h3, h4, h5]
  · intro dateOk fields sa h1 h2 h3 h4 h5 h6 h7
    simp [validateUpdatePayload, h1, h2, h3, h4, h5, h6, h7]
  · intro dateOk
    rfl
  · intro dateOk fields u hu
    unfold validateUpdatePayload at hu
    dsimp only at hu
    rcases hk : firstUnknownKey (fields.map Prod.fst) with _ | k
    · rw [hk] at hu
      by_cases h2 : isSafeIdField (mapGet fields "remId")
      · by_cases h3 : isStrengthField (mapGet fields "strength")
        · by_cases h4 : isSafeIdField (mapGet fields "userId")
          · by_cases h5 : isSafeIdField (mapGet fields "sourceClientId")
            · simp only [h2, h3, h4, h5, Bool.not_true, Bool.false_eq_true,
                if_false] at hu
              obtain ⟨r, hr, _⟩ := isSafeIdField_elim h2
              obtain ⟨g, hg, _⟩ := isStrengthField_elim h3
              obtain ⟨w, hw, _⟩ := isSafeIdField_elim h4
              obtain ⟨c, hc, _⟩ := isSafeIdField_elim h5
              rcases hsa : mapGet fields "sentAt" with _ | sv
              · rw [hsa] at hu
                cases hu
                refine ⟨?_, ?_, ?_, ?_, Or.inl ⟨rfl, rfl⟩⟩ <;>
                  simp [hr, hg, hw, hc, strOfField]
              · rw [hsa] at hu
                match sv with
                | .nullV => exact absurd hu (by simp)
                | .boolV b => exact absurd hu (by simp)
                | .numV n => exact absurd hu (by simp)
                | .strV ss =>
                  by_cases hd : dateOk ss
                  · simp only [hd, if_true] at hu
                    cases hu
                    refine ⟨?_, ?_, ?_, ?_,
                      Or.inr ⟨ss, rfl, rfl, hd⟩⟩ <;>
                      simp [hr, hg, hw, hc, strOfField]
                  · simp only [hd, if_false] at hu
                    exact absurd hu (by simp)
                | .arrV xs => exact absurd hu (by simp)
                | .objV fs => exact absurd hu (by simp)
            · simp [h2, h3, h4, h5] at hu
          · simp [h2, h3, h4] at hu
        · simp [h2, h3] at hu
      · simp [h2] at hu
    · rw [hk] at hu
      exact absurd hu (by simp)

/-- Witness for C5: a payload with a safe `remId` and the strength
`"maybe"` fails precisely on the strength check. -/
theorem claim_C5_witness :
    validateUpdatePayload (fun _ => true)
        (.objV [("remId", .strV "abc123"), ("strength", .strV "maybe")])
      = .invalid .E_INVALID_FIELD "Invalid strength" :=
  claim_C5_validator_order.2.2.2.1 (fun _ => true)
    [("remId", .strV "abc123"), ("strength", .strV "maybe")]
    (by decide) (by decide) (by decide)

/-- C7: a `GET /state` for a valid `userId` never fails — it answers 200
with the stored state when the tenant's last-touched stamp is within the
TTL, and with the canonical empty state when the tenant was never seen or
when the on-demand cleanup expires it (more than `INACTIVITY_TTL` since
the last update). -/
theorem claim_C7_get_state_total (ttl : Nat) (s : ServerState) (uid : String)
    (now : Nat) (hsafe : isSafeString uid = true)
    (hnd : keysNodup s.latestStateByUserId) :
    (handleGetState ttl s (some uid) now).status = 200 ∧
    (handleGetState ttl s (some uid) now).errCode = none ∧
    (mapGet s.latestStateByUserId uid = none →
      (handleGetState ttl s (some uid) now).body = some makeEmptyState) ∧
    (∀ t, mapGet s.latestStateLastTouchedAtByUserId uid = some t →
      now - t > ttl →
      (handleGetState ttl s (some uid) now).body = some makeEmptyState) ∧
    (∀ st t, mapGet s.latestStateByUserId uid = some st →
      mapGet s.latestStateLastTouchedAtByUserId uid = some t →
      now - t ≤ ttl →
      (handleGetState ttl s (some uid) now).body = some st) := by
  refine ⟨?_, ?_, ?_, ?_, ?_⟩
  · simp [handleGetState, hsafe]
  · simp [handleGetState, hsafe]
  · intro hnone
    simp [handleGetState, hsafe, getStateForUser, cleanupInactiveMemory,
      mapGet_filter _ _ _ hnd, hnone]
  · intro t ht hexp
    have he : expiredUser ttl now s.latestStateLastTouchedAtByUserId uid = true := by
      simp [expiredUser, ht, hexp]
    cases hh : mapGet s.latestStateByUserId uid <;>
      simp [handleGetState, hsafe, getStateForUser, cleanupInactiveMemory,
        mapGet_filter _ _ _ hnd, he, hh]
  · intro st t hst ht hfresh
    have he : expiredUser ttl now s.latestStateLastTouchedAtByUserId uid = false := by
      simp only [expiredUser, ht]
      simp
      omega
    simp [handleGetState, hsafe, getStateForUser, cleanupInactiveMemory,
      mapGet_filter _ _ _ hnd, he, hst]

/-- Witness for C7: tenant `u1` updated at time 5, read at time 7 with
TTL 10 — the stored state comes back. -/
theorem claim_C7_witness :
    (handleGetState 10
        { latestStateByUserId :=
            [("u1", { remId := some "r1", strength := some "strong"
                      updatedAt := some 5, sourceClientId := some "d1" })]
          latestStateLastTouchedAtByUserId := [("u1", 5)]
          activeClients := []
          updateCounter := 1 }
        (some "u1") 7).body
      = some { remId := some "r1", strength := some "strong"
               updatedAt := some 5, sourceClientId := some "d1" } :=
  (claim_C7_get_state_total 10 _ "u1" 7 (by decide)
      (by simp [keysNodup])).2.2.2.2
    _ 5 (by decide) (by decide) (by decide)

theorem mapGet_mem {α : Type} {m : List (String × α)} {k : String} {v : α}
    (h : mapGet m k = some v) : (k, v) ∈ m := by
  induction m with
  | nil => exact Option.noConfusion h
  | cons hd tl ih =>
    obtain ⟨k', w⟩ := hd
    by_cases hk : k' = k
    · subst hk
      have h' : w = v := by simpa [mapGet] using h
      subst h'
      exact List.mem_cons_self _ _
    · simp only [mapGet, if_neg hk] at h
      exact List.mem_cons_of_mem _ (ih h)

theorem optStrTruthy_isSome {x : Option String} (h : optStrTruthy x = true) :
    x.isSome = true := by
  cases x with
  | none => exact Bool.noConfusion h
  | some s => rfl

/-- C6: every `TenantState` the system stores, reads back, echoes in a 200
`/update` response or broadcasts satisfies the invariant that the four
fields are null together or non-null together — the empty state is
all-null, an accepted update always stores and returns a fully populated
state, cleanup and `/state` reads preserve the invariant, and a nonempty
broadcast only happens for a fully populated state. -/
theorem claim_C6_state_invariant :
    wellFormedState makeEmptyState = true ∧
    (∀ (s : ServerState) (u : UpdateValue) (n : Nat),
      fullyPopulated (applyAcceptedUpdate s u n).2 = true ∧
      wellFormedState (applyAcceptedUpdate s u n).2 = true) ∧
    (∀ (dateOk : String → Bool) (jsonParse : String → Option JsValue)
      (clients : List Conn) (s : ServerState) (raw : RawBody) (now : Nat),
      (∀ kv ∈ s.latestStateByUserId, wellFormedState kv.2 = true) →
      ((∀ kv ∈ (handleUpdate dateOk jsonParse clients s raw now).state.latestStateByUserId,
          wellFormedState kv.2 = true) ∧
        (∀ st, (handleUpdate dateOk jsonParse clients s raw now).respState = some st →
          wellFormedState st = true))) ∧
    (∀ (ttl : Nat) (s : ServerState) (now : Nat),
      (∀ kv ∈ s.latestStateByUserId, wellFormedState kv.2 = true) →
      ∀ kv ∈ (cleanupInactiveMemory ttl s now).latestStateByUserId,
        wellFormedState kv.2 = true) ∧
    (∀ (s : ServerState) (uid : String),
      (∀ kv ∈ s.latestStateByUserId, wellFormedState kv.2 = true) →
      wellFormedState (getStateForUser s uid) = true) ∧
    (∀ (ttl : Nat) (s : ServerState) (uid : Option String) (now : Nat),
      (∀ kv ∈ s.latestStateByUserId, wellFormedState kv.2 = true) →
      ∀ st, (handleGetState ttl s uid now).body = some st →
        wellFormedState st = true) ∧
    (∀ (clients : List Conn) (uid : String) (st : TenantState),
      broadcastPageUpdate clients uid st ≠ [] → fullyPopulated st = true) := by
  have hget : ∀ (s : ServerState) (uid : String),
      (∀ kv ∈ s.latestStateByUserId, wellFormedState kv.2 = true) →
      wellFormedState (getStateForUser s uid) = true := by
    intro s uid hs
    unfold getStateForUser
    cases hh : mapGet s.latestStateByUserId uid with
    | none => rfl
    | some v => exact hs (uid, v) (mapGet_mem hh)
  have hclean : ∀ (ttl : Nat) (s : ServerState) (now : Nat),
      (∀ kv ∈ s.latestStateByUserId, wellFormedState kv.2 = true) →
      ∀ kv ∈ (cleanupInactiveMemory ttl s now).latestStateByUserId,
        wellFormedState kv.2 = true := by
    intro ttl s now hs kv hkv
    exact hs kv (List.mem_filter.mp hkv).1
  refine ⟨rfl, ?_, ?_, hclean, hget, ?_, ?_⟩
  · intro s u n
    exact ⟨rfl, rfl⟩
  · intro dateOk jsonParse clients s raw now hs
    unfold handleUpdate
    cases hp : parseRequestBody jsonParse raw with
    | error e =>
      obtain ⟨code, msg⟩ := e
      exact ⟨hs, fun st hst => Option.noConfusion hst⟩
    | ok payload =>
      dsimp only
      cases hv : validateUpdatePayload dateOk payload with
      | invalid code msg => exact ⟨hs, fun st hst => Option.noConfusion hst⟩
      | valid u =>
        constructor
        · intro kv hkv
          rcases mem_mapSet hkv with hmem | heq
          · exact hs kv hmem
          · rw [heq]; rfl
        · intro st hst
          rw [← Option.some.inj hst]; rfl
  · intro ttl s uid now hs st hst
    match uid with
    | none => exact Option.noConfusion hst
    | some u =>
      unfold handleGetState at hst
      by_cases hsafe : isSafeString u
      · simp only [hsafe, Bool.not_true, Bool.false_eq_true, if_false] at hst
        rw [← Option.some.inj hst]
        exact hget _ u (hclean ttl s now hs)
      · simp only [Bool.not_eq_true] at hsafe
        simp only [hsafe, Bool.not_false, if_true] at hst
        exact Option.noConfusion hst
  · intro clients uid st hne
    unfold broadcastPageUpdate at hne
    by_cases hc : (optStrTruthy st.remId && optStrTruthy st.strength
        && st.updatedAt.isSome && optStrTruthy st.sourceClientId) = true
    · simp only [Bool.and_eq_true] at hc
      unfold fullyPopulated
      rw [optStrTruthy_isSome hc.1.1.1, optStrTruthy_isSome hc.1.1.2,
        hc.1.2, optStrTruthy_isSome hc.2]
      rfl
    · rw [if_neg hc] at hne
      exact absurd rfl hne

/-- Witness for C6: the state stored by a concrete accepted update is
fully populated and well-formed. -/
theorem claim_C6_witness :
    ∀ kv ∈ (handleUpdate (fun _ => true)
        (fun _ => some (.objV [("remId", .strV "abc123"),
          ("strength", .strV "strong"), ("userId", .strV "u1"),
          ("sourceClientId", .strV "dev1")]))
        [] emptyServer (.content "x") 42).state.latestStateByUserId,
      wellFormedState kv.2 = true :=
  (claim_C6_state_invariant.2.2.1 (fun _ => true)
    (fun _ => some (.objV [("remId", .strV "abc123"),
      ("strength", .strV "strong"), ("userId", .strV "u1"),
      ("sourceClientId", .strV "dev1")]))
    [] emptyServer (.content "x") 42
    (by intro kv hkv; exact absurd hkv (List.not_mem_nil kv))).1

/-- The truthiness guard of `broadcastPageUpdate`. -/
def broadcastGuard (st : TenantState) : Bool :=
  optStrTruthy st.remId && optStrTruthy st.strength && st.updatedAt.isSome
    && optStrTruthy st.sourceClientId

/-- The message built by `broadcastPageUpdate` for tenant `uid`. -/
def pageMsgOf (uid : String) (st : TenantState) : PageUpdateMsg :=
  { remId := st.remId.getD ""
    strength := st.strength.getD ""
    updatedAt := st.updatedAt.getD 0
    userId := uid
    sourceClientId := st.sourceClientId.getD "" }

theorem broadcastPageUpdate_eq_guard (clients : List Conn) (uid : String)
    (st : TenantState) :
    broadcastPageUpdate clients uid st =
      if broadcastGuard st then
        (clients.filter (fun ws => ws.readyState == wsOPEN && ws.userId == uid)).map
          (fun ws => (ws.connId, pageMsgOf uid st))
      else [] := rfl

theorem mem_broadcast {clients : List Conn} {uid : String} {st : TenantState}
    {cid : Nat} {m : PageUpdateMsg}
    (h : (cid, m) ∈ broadcastPageUpdate clients uid st) :
    ∃ ws, ws ∈ clients ∧ ws.connId = cid ∧ ws.userId = uid ∧
      ws.readyState = wsOPEN ∧ m = pageMsgOf uid st ∧ broadcastGuard st = true := by
  rw [broadcastPageUpdate_eq_guard] at h
  by_cases hc : broadcastGuard st = true
  · rw [if_pos hc] at h
    rcases List.mem_map.mp h with ⟨ws, hws, heq⟩
    have hf := List.mem_filter.mp hws
    have hcond := hf.2
    simp only [Bool.and_eq_true, beq_iff_eq] at hcond
    have h1 : ws.connId = cid := congrArg Prod.fst heq
    have h2 : m = pageMsgOf uid st := (congrArg Prod.snd heq).symm
    exact ⟨ws, hf.1, h1, hcond.2, hcond.1, h2, hc⟩
  · rw [if_neg hc] at h
    exact absurd h (List.not_mem_nil _)

theorem broadcast_complete {clients : List Conn} {uid : String} {st : TenantState}
    {ws : Conn} (hws : ws ∈ clients) (hopen : ws.readyState = wsOPEN)
    (huser : ws.userId = uid) (hc : broadcastGuard st = true) :
    (ws.connId, pageMsgOf uid st) ∈ broadcastPageUpdate clients uid st := by
  rw [broadcastPageUpdate_eq_guard, if_pos hc]
  exact List.mem_map.mpr
    ⟨ws, List.mem_filter.mpr ⟨hws, by simp [hopen, huser]⟩, rfl⟩

/-- `isSafeId` on a missing query parameter (`null`) is false. -/
def wsParamSafe : Option String → Bool
  | some u => isSafeString u
  | none => false

/-- C8: a WebSocket upgrade whose `userId` query parameter is missing or
fails the safe-id rule is closed with code 1008 and never registered, so
the registry is unchanged, no welcome is produced, and (its socket id
being fresh) no broadcast over the resulting registry ever addresses it. -/
theorem claim_C8_ws_invalid_user_rejected (clients : List Conn) (connId : Nat)
    (uidParam : Option String) (h : wsParamSafe uidParam = false) :
    handleWsConnection clients connId uidParam = (clients, .rejected 1008) ∧
    (connId ∉ clients.map Conn.connId →
      ∀ (tenant : String) (st : TenantState) (m : PageUpdateMsg),
        (connId, m) ∉
          broadcastPageUpdate (handleWsConnection clients connId uidParam).1
            tenant st) := by
  have hreject : handleWsConnection clients connId uidParam
      = (clients, .rejected 1008) := by
    match uidParam with
    | none => rfl
    | some u =>
      have hu : isSafeString u = false := h
      simp [handleWsConnection, hu]
  refine ⟨hreject, ?_⟩
  intro hfresh tenant st m hmem
  rw [hreject] at hmem
  rcases mem_broadcast hmem with ⟨ws, hws, hcid, _, _, _, _⟩
  exact hfresh (hcid ▸ List.mem_map.mpr ⟨ws, hws, rfl⟩)

/-- Witness for C8: the upgrade with `userId=bad id` (a space is not a
safe character) is rejected and the registry stays empty. -/
theorem claim_C8_witness :
    handleWsConnection [] 7 (some "bad id") = ([], .rejected 1008) :=
  (claim_C8_ws_invalid_user_rejected [] 7 (some "bad id") (by decide)).1

theorem valid_fields_safe {dateOk : String → Bool} {payload : JsValue}
    {u : UpdateValue} (h : validateUpdatePayload dateOk payload = .valid u) :
    isSafeString u.remId = true ∧ (u.strength = "strong" ∨ u.strength = "weak") ∧
    isSafeString u.userId = true ∧ isSafeString u.sourceClientId = true := by
  match payload with
  | .nullV => exact absurd h (by simp [validateUpdatePayload])
  | .boolV b => exact absurd h (by simp [validateUpdatePayload])
  | .numV n => exact absurd h (by simp [validateUpdatePayload])
  | .strV s => exact absurd h (by simp [validateUpdatePayload])
  | .arrV xs => exact absurd h (by simp [validateUpdatePayload])
  | .objV fields =>
    unfold validateUpdatePayload at h
    dsimp only at h
    rcases hk : firstUnknownKey (fields.map Prod.fst) with _ | k
    · rw [hk] at h
      by_cases h2 : isSafeIdField (mapGet fields "remId")
      · by_cases h3 : isStrengthField (mapGet fields "strength")
        · by_cases h4 : isSafeIdField (mapGet fields "userId")
          · by_cases h5 : isSafeIdField (mapGet fields "sourceClientId")
            · simp only [h2, h3, h4, h5, Bool.not_true, Bool.false_eq_true,
                if_false] at h
              obtain ⟨r, hr, hrs⟩ := isSafeIdField_elim h2
              obtain ⟨g, hg, hgs⟩ := isStrengthField_elim h3
              obtain ⟨w, hw, hwx⟩ := isSafeIdField_elim h4
              obtain ⟨c, hc, hcs⟩ := isSafeIdField_elim h5
              rcases hsa : mapGet fields "sentAt" with _ | sv
              · rw [hsa] at h
                cases h
                refine ⟨?_, ?_, ?_, ?_⟩ <;>
                  simp [hr, hg, hw, hc, strOfField, hrs, hgs, hwx, hcs]
              · rw [hsa] at h
                match sv with
                | .nullV => exact absurd h (by simp)
                | .boolV b => exact absurd h (by simp)
                | .numV n => exact absurd h (by simp)
                | .strV ss =>
                  by_cases hd : dateOk ss
                  · simp only [hd, if_true] at h
                    cases h
                    refine ⟨?_, ?_, ?_, ?_⟩ <;>
                      simp [hr, hg, hw, hc, strOfField, hrs, hgs, hwx, hcs]
                  · simp only [hd, if_false] at h
                    exact absurd h (by simp)
                | .arrV xs => exact absurd h (by simp)
                | .objV fs => exact absurd h (by simp)
            · simp [h2, h3, h4, h5] at h
          · simp [h2, h3, h4] at h
        · simp [h2, h3] at h
      · simp [h2] at h
    · rw [hk] at h
      exact absurd h (by simp)

theorem isSafeString_truthy {s : String} (h : isSafeString s = true) :
    optStrTruthy (some s) = true := by
  unfold optStrTruthy
  by_cases he : s = ""
  · subst he
    exact absurd h (by decide)
  · simp [he]

theorem accepted_state_guard {dateOk : String → Bool} {payload : JsValue}
    {u : UpdateValue} (h : validateUpdatePayload dateOk payload = .valid u)
    (s : ServerState) (n : Nat) :
    broadcastGuard (applyAcceptedUpdate s u n).2 = true := by
  obtain ⟨h1, h2, _, h4⟩ := valid_fields_safe h
  have hg : optStrTruthy (some u.strength) = true := by
    rcases h2 with h2 | h2 <;> simp [optStrTruthy, h2]
  unfold broadcastGuard applyAcceptedUpdate
  simp only [isSafeString_truthy h1, isSafeString_truthy h4, hg]
  rfl

theorem handleUpdate_shape (dateOk : String → Bool)
    (jsonParse : String → Option JsValue) (clients : List Conn)
    (s : ServerState) (raw : RawBody) (now : Nat) :
    ((handleUpdate dateOk jsonParse clients s raw now).acceptedUser = none ∧
     (handleUpdate dateOk jsonParse clients s raw now).emitted = []) ∨
    (∃ payload u, parseRequestBody jsonParse raw = .ok payload ∧
      validateUpdatePayload dateOk payload = .valid u ∧
      handleUpdate dateOk jsonParse clients s raw now =
        { state := (applyAcceptedUpdate s u now).1, status := 200
          errCode := none, errMessage := none, acceptedUser := some u.userId
          respState := some (applyAcceptedUpdate s u now).2
          emitted :=
            broadcastPageUpdate clients u.userId (applyAcceptedUpdate s u now).2 }) := by
  unfold handleUpdate
  cases hp : parseRequestBody jsonParse raw with
  | error e =>
    obtain ⟨code, msg⟩ := e
    exact Or.inl ⟨rfl, rfl⟩
  | ok payload =>
    dsimp only
    cases hv : validateUpdatePayload dateOk payload with
    | invalid code msg => exact Or.inl ⟨rfl, rfl⟩
    | valid u => exact Or.inr ⟨payload, u, rfl, hv, rfl⟩

/-- C1: a registered WebSocket connection receives the `page_update`
emitted by a `POST /update` if and only if the request was accepted, the
connection's `userId` equals the tenant that was updated and its socket is
OPEN; every delivered message carries a fully populated state; connections
of other tenants receive nothing; and a GC sweep never emits a message. -/
theorem claim_C1_broadcast_iff :
    (∀ (dateOk : String → Bool) (jsonParse : String → Option JsValue)
        (clients : List Conn) (s : ServerState) (raw : RawBody) (now : Nat)
        (cid : Nat) (m : PageUpdateMsg),
      (cid, m) ∈ (handleUpdate dateOk jsonParse clients s raw now).emitted →
      (handleUpdate dateOk jsonParse clients s raw now).status = 200 ∧
      ∃ ws, ws ∈ clients ∧ ws.connId = cid ∧ ws.readyState = wsOPEN ∧
        (handleUpdate dateOk jsonParse clients s raw now).acceptedUser
          = some ws.userId ∧
        ∃ st, (handleUpdate dateOk jsonParse clients s raw now).respState
            = some st ∧ fullyPopulated st = true ∧ m = pageMsgOf ws.userId st) ∧
    (∀ (dateOk : String → Bool) (jsonParse : String → Option JsValue)
        (clients : List Conn) (s : ServerState) (raw : RawBody) (now : Nat)
        (ws : Conn), ws ∈ clients → ws.readyState = wsOPEN →
      (handleUpdate dateOk jsonParse clients s raw now).acceptedUser
        = some ws.userId →
      ∃ st, (handleUpdate dateOk jsonParse clients s raw now).respState
          = some st ∧
        (ws.connId, pageMsgOf ws.userId st)
          ∈ (handleUpdate dateOk jsonParse clients s raw now).emitted) ∧
    (∀ (dateOk : String → Bool) (jsonParse : String → Option JsValue)
        (clients : List Conn) (s : ServerState) (raw : RawBody) (now : Nat)
        (ws : Conn), (clients.map Conn.connId).Nodup → ws ∈ clients →
      (handleUpdate dateOk jsonParse clients s raw now).acceptedUser
        ≠ some ws.userId →
      ∀ m, (ws.connId, m) ∉ (handleUpdate dateOk jsonParse clients s raw now).emitted) ∧
    (∀ (ttl : Nat) (s : ServerState) (now : Nat), (gcSweepStep ttl s now).2 = []) := by
  have sound : ∀ (dateOk : String → Bool) (jsonParse : String → Option JsValue)
      (clients : List Conn) (s : ServerState) (raw : RawBody) (now : Nat)
      (cid : Nat) (m : PageUpdateMsg),
      (cid, m) ∈ (handleUpdate dateOk jsonParse clients s raw now).emitted →
      (handleUpdate dateOk jsonParse clients s raw now).status = 200 ∧
      ∃ ws, ws ∈ clients ∧ ws.connId = cid ∧ ws.readyState = wsOPEN ∧
        (handleUpdate dateOk jsonParse clients s raw now).acceptedUser
          = some ws.userId ∧
        ∃ st, (handleUpdate dateOk jsonParse clients s raw now).respState
            = some st ∧ fullyPopulated st = true ∧ m = pageMsgOf ws.userId st := by
    intro dateOk jsonParse clients s raw now cid m hmem
    rcases handleUpdate_shape dateOk jsonParse clients s raw now with
      ⟨_, hemp⟩ | ⟨payload, u, hp, hv, heq⟩
    · rw [hemp] at hmem
      exact absurd hmem (List.not_mem_nil _)
    · rw [heq] at hmem
      rcases mem_broadcast hmem with ⟨ws, hws, hcid, huser, hopen, hm, _⟩

      rw [heq]
      refine ⟨rfl, ws, hws, hcid, hopen, ?_, (applyAcceptedUpdate s u now).2,
        rfl, rfl, ?_⟩
      · rw [huser]
      · rw [hm, huser]
  refine ⟨sound, ?_, ?_, ?_⟩
  · intro dateOk jsonParse clients s raw now ws hws hopen hacc
    rcases handleUpdate_shape dateOk jsonParse clients s raw now with
      ⟨hnone, _⟩ | ⟨payload, u, hp, hv, heq⟩
    · rw [hnone] at hacc
      exact Option.noConfusion hacc
    · rw [heq] at hacc
      have hux : u.userId = ws.userId := Option.some.inj hacc
      rw [heq]
      refine ⟨(applyAcceptedUpdate s u now).2, rfl, ?_⟩
      have h2 := broadcast_complete hws hopen hux.symm
        (accepted_state_guard hv s now)
      simp only [hux] at h2 ⊢
      exact h2
  · intro dateOk jsonParse clients s raw now ws hnd hws hne m hmem
    rcases sound dateOk jsonParse clients s raw now ws.connId m hmem with
      ⟨_, ws', hws', hcid, _, hacc, _⟩
    have : ws' = ws := List.inj_on_of_nodup_map hnd hws' hws hcid
    rw [this] at hacc
    exact hne hacc
  · intro ttl s now
    rfl

/-- Witness for C1: with one OPEN socket for tenant `u1`, the accepted
update for `u1` delivers it the `page_update`. -/
theorem claim_C1_witness :
    ∃ st, (handleUpdate (fun _ => true)
        (fun _ => some (.objV [("remId", .strV "abc123"),
          ("strength", .strV "strong"), ("userId", .strV "u1"),
          ("sourceClientId", .strV "dev1")]))
        [{ connId := 1, userId := "u1", readyState := wsOPEN, isAlive := true }]
        emptyServer (.content "x") 42).respState = some st ∧
      ((1 : Nat), pageMsgOf "u1" st)
        ∈ (handleUpdate (fun _ => true)
        (fun _ => some (.objV [("remId", .strV "abc123"),
          ("strength", .strV "strong"), ("userId", .strV "u1"),
          ("sourceClientId", .strV "dev1")]))
        [{ connId := 1, userId := "u1", readyState := wsOPEN, isAlive := true }]
        emptyServer (.content "x") 42).emitted :=
  claim_C1_broadcast_iff.2.1 (fun _ => true)
    (fun _ => some (.objV [("remId", .strV "abc123"),
      ("strength", .strV "strong"), ("userId", .strV "u1"),
      ("sourceClientId", .strV "dev1")]))
    [{ connId := 1, userId := "u1", readyState := wsOPEN, isAlive := true }]
    emptyServer (.content "x") 42
    { connId := 1, userId := "u1", readyState := wsOPEN, isAlive := true }
    (List.mem_singleton.mpr rfl) rfl (by decide)

/-! ### Heartbeat lemmas -/

theorem heartbeatSweep_mem_sound {l : List Conn} {x : Conn}
    (h : x ∈ (heartbeatSweep l).1) :
    ∃ y, y ∈ l ∧ y.isAlive = true ∧ x = { y with isAlive := false } := by
  induction l with
  | nil => exact absurd h (List.not_mem_nil _)
  | cons ws rest ih =>
    by_cases ha : ws.isAlive = false
    · rw [show heartbeatSweep (ws :: rest)
          = ((heartbeatSweep rest).1, ws.connId :: (heartbeatSweep rest).2) by
        simp [heartbeatSweep, ha]] at h
      rcases ih h with ⟨y, hy, hal, hx⟩
      exact ⟨y, List.mem_cons_of_mem _ hy, hal, hx⟩
    · rw [show heartbeatSweep (ws :: rest)
          = ({ ws with isAlive := false } :: (heartbeatSweep rest).1,
              (heartbeatSweep rest).2) by
        simp [heartbeatSweep, ha]] at h
      cases h with
      | head =>
        exact ⟨ws, List.mem_cons_self _ _, Bool.not_eq_false _ ▸
          (by revert ha; cases ws.isAlive <;> simp), rfl⟩
      | tail _ hmem =>
        rcases ih hmem with ⟨y, hy, hal, hx⟩
        exact ⟨y, List.mem_cons_of_mem _ hy, hal, hx⟩

theorem heartbeatSweep_survivor_dead {l : List Conn} {x : Conn}
    (h : x ∈ (heartbeatSweep l).1) : x.isAlive = false := by
  rcases heartbeatSweep_mem_sound h with ⟨y, _, _, hx⟩
  rw [hx]

theorem heartbeatSweep_mem_complete {l : List Conn} {c : Conn}
    (hc : c ∈ l) (ha : c.isAlive = true) :
    { c with isAlive := false } ∈ (heartbeatSweep l).1 := by
  induction l with
  | nil => exact absurd hc (List.not_mem_nil _)
  | cons ws rest ih =>
    cases hc with
    | head =>
      rw [show heartbeatSweep (c :: rest)
          = ({ c with isAlive := false } :: (heartbeatSweep rest).1,
              (heartbeatSweep rest).2) by
        simp [heartbeatSweep, ha]]
      exact List.mem_cons_self _ _
    | tail _ hmem =>
      by_cases hws : ws.isAlive = false
      · rw [show heartbeatSweep (ws :: rest)
            = ((heartbeatSweep rest).1, ws.connId :: (heartbeatSweep rest).2) by
          simp [heartbeatSweep, hws]]
        exact ih hmem
      · rw [show heartbeatSweep (ws :: rest)
            = ({ ws with isAlive := false } :: (heartbeatSweep rest).1,
                (heartbeatSweep rest).2) by
          simp [heartbeatSweep, hws]]
        exact List.mem_cons_of_mem _ (ih hmem)

theorem heartbeatSweep_term_sound {l : List Conn} {cid : Nat}
    (h : cid ∈ (heartbeatSweep l).2) :
    ∃ y, y ∈ l ∧ y.isAlive = false ∧ y.connId = cid := by
  induction l with
  | nil => exact absurd h (List.not_mem_nil _)
  | cons ws rest ih =>
    by_cases ha : ws.isAlive = false
    · rw [show heartbeatSweep (ws :: rest)
          = ((heartbeatSweep rest).1, ws.connId :: (heartbeatSweep rest).2) by
        simp [heartbeatSweep, ha]] at h
      cases h with
      | head => exact ⟨ws, List.mem_cons_self _ _, ha, rfl⟩
      | tail _ hmem =>
        rcases ih hmem with ⟨y, hy, hdead, hcid⟩
        exact ⟨y, List.mem_cons_of_mem _ hy, hdead, hcid⟩
    · rw [show heartbeatSweep (ws :: rest)
          = ({ ws with isAlive := false } :: (heartbeatSweep rest).1,
              (heartbeatSweep rest).2) by
        simp [heartbeatSweep, ha]] at h
      rcases ih h with ⟨y, hy, hdead, hcid⟩
      exact ⟨y, List.mem_cons_of_mem _ hy, hdead, hcid⟩

theorem heartbeatSweep_term_complete {l : List Conn} {c : Conn}
    (hc : c ∈ l) (ha : c.isAlive = false) :
    c.connId ∈ (heartbeatSweep l).2 := by
  induction l with
  | nil => exact absurd hc (List.not_mem_nil _)
  | cons ws rest ih =>
    cases hc with
    | head =>
      rw [show heartbeatSweep (c :: rest)
          = ((heartbeatSweep rest).1, c.connId :: (heartbeatSweep rest).2) by
        simp [heartbeatSweep, ha]]
      exact List.mem_cons_self _ _
    | tail _ hmem =>
      by_cases hws : ws.isAlive = false
      · rw [show heartbeatSweep (ws :: rest)
            = ((heartbeatSweep rest).1, ws.connId :: (heartbeatSweep rest).2) by
          simp [heartbeatSweep, hws]]
        exact List.mem_cons_of_mem _ (ih hmem)
      · rw [show heartbeatSweep (ws :: rest)
            = ({ ws with isAlive := false } :: (heartbeatSweep rest).1,
                (heartbeatSweep rest).2) by
          simp [heartbeatSweep, hws]]
        exact ih hmem

theorem mem_handlePong_of_ne {l : List Conn} {x : Conn} {cid : Nat}
    (hx : x ∈ l) (hne : x.connId ≠ cid) : x ∈ handlePong l cid := by
  unfold handlePong
  exact List.mem_map.mpr ⟨x, hx, by rw [if_neg hne]⟩

theorem mem_applyPongs_of_not_mem {ps : List Nat} {l : List Conn} {x : Conn}
    (hx : x ∈ l) (hps : x.connId ∉ ps) : x ∈ applyPongs l ps := by
  induction ps generalizing l with
  | nil => exact hx
  | cons p ps ih =>
    have hne : x.connId ≠ p := fun hh => hps (hh ▸ List.mem_cons_self _ _)
    have hps' : x.connId ∉ ps := fun hh => hps (List.mem_cons_of_mem _ hh)
    exact ih (mem_handlePong_of_ne hx hne) hps'

theorem handlePong_alive_origin {l : List Conn} {x : Conn} {cid : Nat}
    (h : x ∈ handlePong l cid) (hne : x.connId ≠ cid) : x ∈ l := by
  unfold handlePong at h
  rcases List.mem_map.mp h with ⟨z, hz, hzx⟩
  by_cases hc : z.connId = cid
  · rw [if_pos hc] at hzx
    exact absurd (hzx ▸ hc) hne
  · rw [if_neg hc] at hzx
    exact hzx ▸ hz

theorem applyPongs_origin_of_not_mem {ps : List Nat} {l : List Conn} {x : Conn}
    (h : x ∈ applyPongs l ps) (hps : x.connId ∉ ps) : x ∈ l := by
  induction ps generalizing l with
  | nil => exact h
  | cons p ps ih =>
    have hne : x.connId ≠ p := fun hh => hps (hh ▸ List.mem_cons_self _ _)
    have hps' : x.connId ∉ ps := fun hh => hps (List.mem_cons_of_mem _ hh)
    exact handlePong_alive_origin (ih h hps') hne

/-- C9: a connection still marked alive is never terminated by the sweep —
it survives marked not-alive — while a connection that delivers no pong is
terminated no later than the second sweep after registration and its id is
absent from the registry after that second sweep (pong batches for other
sockets may happen in between). -/
theorem claim_C9_heartbeat_two_sweeps :
    (∀ (clients : List Conn) (c : Conn), (clients.map Conn.connId).Nodup →
      c ∈ clients → c.isAlive = true →
      ({ c with isAlive := false } ∈ (heartbeatSweep clients).1 ∧
        c.connId ∉ (heartbeatSweep clients).2)) ∧
    (∀ (clients : List Conn) (c : Conn) (pongs1 pongs2 : List Nat),
      c ∈ clients → c.connId ∉ pongs1 → c.connId ∉ pongs2 →
      (c.connId ∈ (heartbeatSweep (applyPongs clients pongs1)).2 ∨
        c.connId ∈ (heartbeatSweep (applyPongs
          (heartbeatSweep (applyPongs clients pongs1)).1 pongs2)).2)) ∧
    (∀ (l1 : List Conn) (pongs2 : List Nat) (cid : Nat), cid ∉ pongs2 →
      cid ∉ ((heartbeatSweep (applyPongs (heartbeatSweep l1).1 pongs2)).1).map
        Conn.connId) := by
  refine ⟨?_, ?_, ?_⟩
  · intro clients c hnd hc ha
    refine ⟨heartbeatSweep_mem_complete hc ha, ?_⟩
    intro hterm
    rcases heartbeatSweep_term_sound hterm with ⟨y, hy, hdead, hcid⟩
    have : y = c := List.inj_on_of_nodup_map hnd hy hc hcid
    rw [this] at hdead
    rw [ha] at hdead
    exact Bool.noConfusion hdead
  · intro clients c pongs1 pongs2 hc hp1 hp2
    have hc1 : c ∈ applyPongs clients pongs1 := mem_applyPongs_of_not_mem hc hp1
    by_cases ha : c.isAlive = false
    · exact Or.inl (heartbeatSweep_term_complete hc1 ha)
    · have ha' : c.isAlive = true := by
        revert ha; cases c.isAlive <;> simp
      have hs1 : { c with isAlive := false }
          ∈ (heartbeatSweep (applyPongs clients pongs1)).1 :=
        heartbeatSweep_mem_complete hc1 ha'
      have hs2 : { c with isAlive := false }
          ∈ applyPongs (heartbeatSweep (applyPongs clients pongs1)).1 pongs2 :=
        mem_applyPongs_of_not_mem hs1 hp2
      refine Or.inr ?_
      have h3 := heartbeatSweep_term_complete hs2 rfl
      exact h3
  · intro l1 pongs2 cid hp2 hmem
    rcases List.mem_map.mp hmem with ⟨x, hx, hxid⟩
    rcases heartbeatSweep_mem_sound hx with ⟨y, hy, hal, hxy⟩
    have hyid : y.connId = cid := by rw [← hxid, hxy]
    have hy1 : y ∈ (heartbeatSweep l1).1 :=
      applyPongs_origin_of_not_mem hy (hyid ▸ hp2)
    have : y.isAlive = false := heartbeatSweep_survivor_dead hy1
    rw [hal] at this
    exact Bool.noConfusion this

/-- Witness for C9: a freshly registered socket that never pongs survives
the first sweep and is terminated by the second. -/
theorem claim_C9_witness :
    (3 : Nat) ∈ (heartbeatSweep (applyPongs
      (heartbeatSweep (applyPongs
        [{ connId := 3, userId := "u1", readyState := wsOPEN, isAlive := true }]
        [])).1 [])).2 :=
  ((claim_C9_heartbeat_two_sweeps.2.1
    [{ connId := 3, userId := "u1", readyState := wsOPEN, isAlive := true }]
    { connId := 3, userId := "u1", readyState := wsOPEN, isAlive := true }
    [] [] (List.mem_singleton.mpr rfl) (List.not_mem_nil _)
    (List.not_mem_nil _)).resolve_left (by decide))

/-! ### Sequences of accepted updates -/

theorem applySeq_cons (s : ServerState) (p : UpdateValue × Nat)
    (us : List (UpdateValue × Nat)) :
    applySeq s (p :: us) = applySeq (applyAcceptedUpdate s p.1 p.2).1 us := rfl

theorem keysNodup_applySeq (us : List (UpdateValue × Nat)) (s : ServerState)
    (h : keysNodup s.latestStateByUserId) :
    keysNodup (applySeq s us).latestStateByUserId := by
  induction us generalizing s with
  | nil => exact h
  | cons p rest ih =>
    rw [applySeq_cons]
    exact ih _ (keysNodup_mapSet _ _ h)

theorem applySeq_last_state (us : List (UpdateValue × Nat)) (s : ServerState)
    (tenant : String) (hne : us ≠ [])
    (hall : ∀ p ∈ us, p.1.userId = tenant) :
    mapGet (applySeq s us).latestStateByUserId tenant
      = some { remId := some (us.getLast hne).1.remId
               strength := some (us.getLast hne).1.strength
               updatedAt := some (us.getLast hne).2
               sourceClientId := some (us.getLast hne).1.sourceClientId } ∧
    mapGet (applySeq s us).latestStateLastTouchedAtByUserId tenant
      = some (us.getLast hne).2 := by
  induction us generalizing s with
  | nil => exact absurd rfl hne
  | cons p rest ih =>
    cases rest with
    | nil =>
      have hu : p.1.userId = tenant := hall p (List.mem_cons_self _ _)
      constructor
      · show mapGet (mapSet s.latestStateByUserId p.1.userId _) tenant = _
        rw [hu, mapGet_mapSet_self]
        rfl
      · show mapGet (mapSet s.latestStateLastTouchedAtByUserId p.1.userId _) tenant = _
        rw [hu, mapGet_mapSet_self]
        rfl
    | cons q rest' =>
      rw [applySeq_cons]
      have hall' : ∀ r ∈ q :: rest', r.1.userId = tenant :=
        fun r hr => hall r (List.mem_cons_of_mem _ hr)
      have hres := ih (applyAcceptedUpdate s p.1 p.2).1
        (List.cons_ne_nil q rest') hall'
      rw [List.getLast_cons (List.cons_ne_nil q rest')]
      exact hres

theorem applySeq_take_updatedAt (us : List (UpdateValue × Nat)) (s : ServerState)
    (tenant : String) (hall : ∀ p ∈ us, p.1.userId = tenant) (i : Nat)
    (hi : i < us.length) :
    (getStateForUser (applySeq s (us.take (i + 1))) tenant).updatedAt
      = some (us.get ⟨i, hi⟩).2 := by
  induction us generalizing s i with
  | nil => exact absurd hi (by simp)
  | cons p rest ih =>
    cases i with
    | zero =>
      have hu : p.1.userId = tenant := hall p (List.mem_cons_self _ _)
      show ((mapGet (mapSet s.latestStateByUserId p.1.userId _) tenant).getD
        makeEmptyState).updatedAt = _
      rw [hu, mapGet_mapSet_self]
      rfl
    | succ i' =>
      have hall' : ∀ r ∈ rest, r.1.userId = tenant :=
        fun r hr => hall r (List.mem_cons_of_mem _ hr)
      have hi' : i' < rest.length := Nat.lt_of_succ_lt_succ hi
      exact ih _ hall' i' hi'

theorem chain_le_get (xs : List Nat) (hc : List.Chain' (· ≤ ·) xs)
    {i j : Nat} (hi : i < xs.length) (hj : j < xs.length) (hij : i ≤ j) :
    xs.get ⟨i, hi⟩ ≤ xs.get ⟨j, hj⟩ := by
  rcases Nat.lt_or_ge i j with hlt | hge
  · have hp := (List.chain'_iff_pairwise).mp hc
    exact List.pairwise_iff_get.mp hp ⟨i, hi⟩ ⟨j, hj⟩ hlt
  · have : i = j := Nat.le_antisymm hij hge
    subst this
    exact Nat.le_refl _

theorem applySeq_sentAt_independent (f : Option String → Option String)
    (s : ServerState) (us : List (UpdateValue × Nat)) :
    applySeq s (us.map (fun p => ({ p.1 with sentAt := f p.1.sentAt }, p.2)))
      = applySeq s us := by
  induction us generalizing s with
  | nil => rfl
  | cons p rest ih => exact ih _

theorem validate_sentAt_swap (dateOk : String → Bool)
    (fields : List (String × JsValue)) (s1 s2 : String)
    (h : dateOk s1 = dateOk s2) :
    forgetSentAt (validateUpdatePayload dateOk
        (.objV (mapSet fields "sentAt" (.strV s1))))
      = forgetSentAt (validateUpdatePayload dateOk
        (.objV (mapSet fields "sentAt" (.strV s2)))) := by
  have hkeys : (mapSet fields "sentAt" (JsValue.strV s1)).map Prod.fst
      = (mapSet fields "sentAt" (JsValue.strV s2)).map Prod.fst := by
    rw [keys_mapSet, keys_mapSet]
  have hget1 : ∀ k, k ≠ "sentAt" →
      mapGet (mapSet fields "sentAt" (JsValue.strV s1)) k = mapGet fields k :=
    fun k hk => mapGet_mapSet_ne _ _ _ _ hk
  have hget2 : ∀ k, k ≠ "sentAt" →
      mapGet (mapSet fields "sentAt" (JsValue.strV s2)) k = mapGet fields k :=
    fun k hk => mapGet_mapSet_ne _ _ _ _ hk
  unfold validateUpdatePayload
  dsimp only
  rw [hkeys]
  cases hfk : firstUnknownKey ((mapSet fields "sentAt" (JsValue.strV s2)).map
      Prod.fst) with
  | some k => rfl
  | none =>
    rw [hget1 "remId" (by decide), hget2 "remId" (by decide),
      hget1 "strength" (by decide), hget2 "strength" (by decide),
      hget1 "userId" (by decide), hget2 "userId" (by decide),
      hget1 "sourceClientId" (by decide), hget2 "sourceClientId" (by decide),
      mapGet_mapSet_self, mapGet_mapSet_self]
    by_cases c1 : isSafeIdField (mapGet fields "remId")
    · by_cases c2 : isStrengthField (mapGet fields "strength")
      · by_cases c3 : isSafeIdField (mapGet fields "userId")
        · by_cases c4 : isSafeIdField (mapGet fields "sourceClientId")
          · by_cases cd : dateOk s1
            · have cd2 : dateOk s2 = true := h ▸ cd
              simp [c1, c2, c3, c4, cd, cd2, forgetSentAt]
            · have cd2 : dateOk s2 = false := by
                rw [← h]
                revert cd
                cases dateOk s1 <;> simp
              simp [c1, c2, c3, c4, cd, cd2, forgetSentAt]
          · simp [c1, c2, c3, c4, forgetSentAt]
        · simp [c1, c2, c3, forgetSentAt]
      · simp [c1, c2, forgetSentAt]
    · simp [c1, forgetSentAt]

/-- C2: after a sequence of accepted updates for a tenant, a `/state` read
within the TTL returns exactly the last update's `remId`, `strength` and
`sourceClientId` with `updatedAt` stamped from the server clock at
acceptance; `updatedAt` is non-decreasing along the sequence when the
server clock is; and both the stored state and the validator's acceptance
are independent of the `sentAt` values (last processed write wins). -/
theorem claim_C2_last_write_wins :
    (∀ (s : ServerState) (us : List (UpdateValue × Nat)) (tenant : String)
        (ttl readAt : Nat) (hne : us ≠ []),
      (∀ p ∈ us, p.1.userId = tenant) →
      isSafeString tenant = true →
      keysNodup s.latestStateByUserId →
      readAt - (us.getLast hne).2 ≤ ttl →
      (handleGetState ttl (applySeq s us) (some tenant) readAt).status = 200 ∧
      (handleGetState ttl (applySeq s us) (some tenant) readAt).body
        = some { remId := some (us.getLast hne).1.remId
                 strength := some (us.getLast hne).1.strength
                 updatedAt := some (us.getLast hne).2
                 sourceClientId := some (us.getLast hne).1.sourceClientId }) ∧
    (∀ (s : ServerState) (us : List (UpdateValue × Nat)) (tenant : String)
        (i j : Nat) (hi : i < us.length) (hj : j < us.length),
      (∀ p ∈ us, p.1.userId = tenant) →
      List.Chain' (· ≤ ·) (us.map Prod.snd) → i ≤ j →
      ((getStateForUser (applySeq s (us.take (i + 1))) tenant).updatedAt
          = some (us.get ⟨i, hi⟩).2 ∧
        (getStateForUser (applySeq s (us.take (j + 1))) tenant).updatedAt
          = some (us.get ⟨j, hj⟩).2 ∧
        (us.get ⟨i, hi⟩).2 ≤ (us.get ⟨j, hj⟩).2)) ∧
    (∀ (f : Option String → Option String) (s : ServerState)
        (us : List (UpdateValue × Nat)),
      applySeq s (us.map (fun p => ({ p.1 with sentAt := f p.1.sentAt }, p.2)))
        = applySeq s us) ∧
    (∀ (dateOk : String → Bool) (fields : List (String × JsValue))
        (s1 s2 : String), dateOk s1 = dateOk s2 →
      forgetSentAt (validateUpdatePayload dateOk
          (.objV (mapSet fields "sentAt" (.strV s1))))
        = forgetSentAt (validateUpdatePayload dateOk
          (.objV (mapSet fields "sentAt" (.strV s2))))) := by
  refine ⟨?_, ?_, applySeq_sentAt_independent, validate_sentAt_swap⟩
  · intro s us tenant ttl readAt hne hall hsafe hnd hfresh
    obtain ⟨hst, htt⟩ := applySeq_last_state us s tenant hne hall
    have hnd' : keysNodup (applySeq s us).latestStateByUserId :=
      keysNodup_applySeq us s hnd
    have he : expiredUser ttl readAt
        (applySeq s us).latestStateLastTouchedAtByUserId tenant = false := by
      simp only [expiredUser, htt]
      simp
      omega
    constructor
    · simp [handleGetState, hsafe]
    · simp [handleGetState, hsafe, getStateForUser, cleanupInactiveMemory,
        mapGet_filter _ _ _ hnd', he, hst]
  · intro s us tenant i j hi hj hall hchain hij
    have hmap : ∀ (n : Nat) (hn : n < us.length),
        (us.map Prod.snd).get ⟨n, by simpa using hn⟩ = (us.get ⟨n, hn⟩).2 :=
      fun n hn => List.get_map Prod.snd
    refine ⟨applySeq_take_updatedAt us s tenant hall i hi,
      applySeq_take_updatedAt us s tenant hall j hj, ?_⟩
    have := chain_le_get (us.map Prod.snd) hchain
      (by simpa using hi) (by simpa using hj) hij
    rw [hmap i hi, hmap j hj] at this
    exact this

/-- Witness for C2: two accepted updates for tenant `u1` at times 5 then 7;
the read at time 7 returns the second update's fields stamped at 7. -/
theorem claim_C2_witness :
    (handleGetState 10 (applySeq emptyServer
        [({ remId := "r1", strength := "strong", userId := "u1"
            sourceClientId := "d1", sentAt := none }, 5),
         ({ remId := "r2", strength := "weak", userId := "u1"
            sourceClientId := "d2", sentAt := none }, 7)])
      (some "u1") 7).body
      = some { remId := some "r2", strength := some "weak"
               updatedAt := some 7, sourceClientId := some "d2" } :=
  (claim_C2_last_write_wins.1 emptyServer
    [({ remId := "r1", strength := "strong", userId := "u1"
        sourceClientId := "d1", sentAt := none }, 5),
     ({ remId := "r2", strength := "weak", userId := "u1"
        sourceClientId := "d2", sentAt := none }, 7)]
    "u1" 10 7 (by decide)
    (by intro p hp; fin_cases hp <;> rfl)
    (by decide) (by simp [keysNodup, emptyServer]) (by decide)).2

end PageSync
